import Mathlib

/-!
Verification of the arbitrage engine for binary-outcome prediction markets.

Shallow embedding of the Rust sources (`types.rs`, `config.rs`, `risk.rs`,
`market.rs`, `execution.rs`, `strategy.rs`).  `rust_decimal::Decimal` values
are modelled as rationals (`ℚ`); the mutable state behind `Arc<Mutex<...>>`
and `Arc<RwLock<...>>` is passed explicitly; the hash maps of the market
monitor are modelled as functions `String → Option _`; the results of the
network submissions (`place_order`) are passed in as boolean parameters
(`filled_yes`, `filled_no`), exactly matching `verify_fill`, which classifies
a leg as filled iff its submission returned an order id.
-/

/-! ### types.rs -/

inductive Side where
  | Buy
  | Sell
deriving DecidableEq

inductive TradeStatus where
  | Pending
  | Filled
  | PartialFillEmergency
  | Failed
  | Cancelled
deriving DecidableEq

structure Level where
  price : ℚ
  size : ℚ
deriving DecidableEq

structure OrderBook where
  market_id : String
  asset_id : String
  bids : List Level
  asks : List Level
  timestamp : ℤ
deriving DecidableEq

structure Token where
  token_id : String
  outcome : String
  price : ℚ
  winner : Bool
deriving DecidableEq

structure MarketState where
  last_trade_time : Option ℤ
  is_normalized : Bool
  consecutive_normalized_updates : ℕ
  last_edge : ℚ
deriving DecidableEq

structure Market where
  condition_id : String
  question : String
  tokens : List Token
  active : Bool
  closed : Bool
  accepting_orders : Bool
  end_date_iso : Option String
  tags : Option (List String)
  state : MarketState
deriving DecidableEq

structure OrderRequest where
  market_id : String
  token_id : String
  side : Side
  price : ℚ
  size : ℚ
  order_type : String
  nonce : ℕ
deriving DecidableEq

/-! ### config.rs (the numeric thresholds the core consumes) -/

structure Config where
  min_edge : ℚ
  min_liquidity_multiplier : ℚ
  normalization_threshold : ℚ
  normalization_updates : ℕ
  trade_cooldown_ms : ℤ
deriving DecidableEq

/-! ### risk.rs -/

/-- The two configured percentages carried by `RiskManager` itself
(outside the mutex). -/
structure RiskManager where
  max_daily_loss_pct : ℚ
  max_trade_capital_pct : ℚ
deriving DecidableEq

/-- The state behind the `RiskManager` mutex. -/
structure RiskState where
  initial_balance : ℚ
  current_balance : ℚ
  daily_pnl : ℚ
  safe_mode : Bool
deriving DecidableEq

/-- `RiskManager::new`: the initial `RiskState`. -/
def new_risk_state (initial_balance : ℚ) : RiskState :=
  { initial_balance := initial_balance
    current_balance := initial_balance
    daily_pnl := 0
    safe_mode := false }

/-- `RiskManager::check_trade_size`. -/
def check_trade_size (rm : RiskManager) (s : RiskState) (required_amount : ℚ) : Bool :=
  if s.safe_mode then
    false
  else
    let max_trade_size := s.current_balance * rm.max_trade_capital_pct
    if max_trade_size < required_amount then
      false
    else
      let loss_limit := s.initial_balance * rm.max_daily_loss_pct
      if s.daily_pnl < -loss_limit then
        false
      else
        true

/-- `RiskManager::record_pnl`. -/
def record_pnl (rm : RiskManager) (s : RiskState) (pnl : ℚ) : RiskState :=
  let daily_pnl := s.daily_pnl + pnl
  let current_balance := s.current_balance + pnl
  let loss_limit := s.initial_balance * rm.max_daily_loss_pct
  { s with
    daily_pnl := daily_pnl
    current_balance := current_balance
    safe_mode := if daily_pnl < -loss_limit then true else s.safe_mode }

/-- `RiskManager::enter_safe_mode`. -/
def enter_safe_mode (s : RiskState) : RiskState :=
  { s with safe_mode := true }

/-- `RiskManager::is_safe_mode`. -/
def is_safe_mode (s : RiskState) : Bool :=
  s.safe_mode

/-- The public operations of `RiskManager`, for stating lifetime invariants
over arbitrary call sequences. -/
inductive RiskOp where
  | checkTradeSize (required_amount : ℚ)
  | recordPnl (pnl : ℚ)
  | enterSafeMode
  | isSafeMode

/-- Effect of one `RiskManager` operation on the guarded state
(`check_trade_size` and `is_safe_mode` read but never mutate). -/
def apply_risk_op (rm : RiskManager) (s : RiskState) : RiskOp → RiskState
  | RiskOp.checkTradeSize _ => s
  | RiskOp.recordPnl pnl => record_pnl rm s pnl
  | RiskOp.enterSafeMode => enter_safe_mode s
  | RiskOp.isSafeMode => s

/-- Running a sequence of `RiskManager` operations. -/
def run_risk_ops (rm : RiskManager) (s : RiskState) (ops : List RiskOp) : RiskState :=
  ops.foldl (apply_risk_op rm) s

/-- Running a sequence of `record_pnl` calls. -/
def apply_pnls (rm : RiskManager) (s : RiskState) (ds : List ℚ) : RiskState :=
  ds.foldl (record_pnl rm) s

theorem apply_pnls_accum (rm : RiskManager) (ds : List ℚ) (s : RiskState) :
    (apply_pnls rm s ds).daily_pnl = s.daily_pnl + ds.sum ∧
    (apply_pnls rm s ds).current_balance = s.current_balance + ds.sum ∧
    (apply_pnls rm s ds).initial_balance = s.initial_balance := by
  induction ds generalizing s with
  | nil => simp [apply_pnls]
  | cons d rest ih =>
    obtain ⟨h1, h2, h3⟩ := ih (record_pnl rm s d)
    simp only [apply_pnls, List.foldl_cons, List.sum_cons] at h1 h2 h3 ⊢
    refine ⟨?_, ?_, ?_⟩
    · rw [h1]; simp only [record_pnl]; ring
    · rw [h2]; simp only [record_pnl]; ring
    · rw [h3]; simp only [record_pnl]

/-- C3: `check_trade_size` returns false if `safe_mode` is true, false if the
amount exceeds `current_balance × max_trade_capital_pct`, false if
`daily_pnl < −(initial_balance × max_daily_loss_pct)`, and true otherwise;
in particular it is false whenever `safe_mode` is true. -/
theorem check_trade_size_spec (rm : RiskManager) (s : RiskState) (amt : ℚ) :
    (check_trade_size rm s amt = true ↔
      (s.safe_mode = false ∧
        amt ≤ s.current_balance * rm.max_trade_capital_pct ∧
        -(s.initial_balance * rm.max_daily_loss_pct) ≤ s.daily_pnl)) ∧
    (s.safe_mode = true → check_trade_size rm s amt = false) := by
  constructor
  · unfold check_trade_size
    by_cases h1 : s.safe_mode <;>
      by_cases h2 : s.current_balance * rm.max_trade_capital_pct < amt <;>
        by_cases h3 : s.daily_pnl < -(s.initial_balance * rm.max_daily_loss_pct) <;>
          simp [h1, h2, h3] <;>
          first
            | linarith
            | (intro h; linarith)
            | exact ⟨by linarith, by linarith⟩
  · intro h
    unfold check_trade_size
    simp [h]

theorem check_trade_size_spec_witness :
    check_trade_size ⟨1/50, 1/100⟩ ⟨1000, 1000, 0, true⟩ 1 = false :=
  (check_trade_size_spec ⟨1/50, 1/100⟩ ⟨1000, 1000, 0, true⟩ 1).2 rfl

/-- C4: over every sequence of `RiskManager` operations, once `safe_mode` is
true it stays true: no operation of the component clears it. -/
theorem safe_mode_latch (rm : RiskManager) (s : RiskState) (ops : List RiskOp)
    (h : s.safe_mode = true) : (run_risk_ops rm s ops).safe_mode = true := by
  induction ops generalizing s with
  | nil => exact h
  | cons op rest ih =>
    simp only [run_risk_ops, List.foldl_cons] at ih ⊢
    apply ih
    cases op with
    | checkTradeSize a => exact h
    | recordPnl p => simp [apply_risk_op, record_pnl, h]
    | enterSafeMode => rfl
    | isSafeMode => exact h

theorem safe_mode_latch_witness :
    (run_risk_ops ⟨1/50, 1/100⟩ ⟨1000, 1000, 0, true⟩
      [RiskOp.recordPnl 5, RiskOp.checkTradeSize 1, RiskOp.recordPnl (-7),
        RiskOp.isSafeMode]).safe_mode = true :=
  safe_mode_latch ⟨1/50, 1/100⟩ ⟨1000, 1000, 0, true⟩ _ rfl

/-- C6: `record_pnl` is additive — starting from the fresh state, after deltas
`ds` the `daily_pnl` equals their sum and `current_balance` equals the initial
balance plus that sum — and each call sets `safe_mode` when the updated
`daily_pnl` falls below `−(initial_balance × max_daily_loss_pct)`. -/
theorem record_pnl_additive (rm : RiskManager) (initial : ℚ) (ds : List ℚ)
    (s : RiskState) (d : ℚ)
    (hbreach : (record_pnl rm s d).daily_pnl < -(s.initial_balance * rm.max_daily_loss_pct)) :
    (apply_pnls rm (new_risk_state initial) ds).daily_pnl = ds.sum ∧
    (apply_pnls rm (new_risk_state initial) ds).current_balance = initial + ds.sum ∧
    (record_pnl rm s d).safe_mode = true := by
  have h := apply_pnls_accum rm ds (new_risk_state initial)
  refine ⟨?_, ?_, ?_⟩
  · rw [h.1]; simp [new_risk_state]
  · rw [h.2.1]; simp [new_risk_state]
  · simp only [record_pnl] at hbreach ⊢
    simp only [if_pos hbreach]

theorem record_pnl_additive_witness :
    (apply_pnls ⟨1/50, 1/100⟩ (new_risk_state 1000) [2, -3]).daily_pnl = [2, -3].sum ∧
    (apply_pnls ⟨1/50, 1/100⟩ (new_risk_state 1000) [2, -3]).current_balance
      = 1000 + [2, -3].sum ∧
    (record_pnl ⟨1/50, 1/100⟩ (new_risk_state 1000) (-100)).safe_mode = true :=
  record_pnl_additive ⟨1/50, 1/100⟩ 1000 [2, -3] (new_risk_state 1000) (-100)
    (by norm_num [record_pnl, new_risk_state])

/-! ### market.rs -/

/-- The shared maps of `MarketMonitor`: `active_markets` (market id → market)
and `order_books` (token id → latest book). -/
structure MarketMonitor where
  active_markets : String → Option Market
  order_books : String → Option OrderBook

/-- Rust's `Iterator::min_by` on the price key: the minimum-price level,
the last one on ties. -/
def min_by_price (levels : List Level) : Option Level :=
  match levels with
  | [] => none
  | l :: rest => some (rest.foldl (fun best x => if best.price < x.price then best else x) l)

/-- `MarketMonitor::get_best_asks`. -/
def get_best_asks (mm : MarketMonitor) (token_yes token_no : String) : Option (ℚ × ℚ) := do
  let book_yes ← mm.order_books token_yes
  let book_no ← mm.order_books token_no
  let best_ask_yes ← min_by_price book_yes.asks
  let best_ask_no ← min_by_price book_no.asks
  pure (best_ask_yes.price, best_ask_no.price)

/-- The `check_token` closure inside `MarketMonitor::check_liquidity`. -/
def check_token_liquidity (mm : MarketMonitor) (required_size : ℚ) (token_id : String) : Bool :=
  match mm.order_books token_id with
  | none => false
  | some book =>
    match min_by_price book.asks with
    | none => false
    | some best_ask => required_size ≤ best_ask.size

/-- `MarketMonitor::check_liquidity`. -/
def check_liquidity (mm : MarketMonitor) (token_yes token_no : String)
    (required_size : ℚ) : Bool :=
  check_token_liquidity mm required_size token_yes &&
    check_token_liquidity mm required_size token_no

/-- `MarketMonitor::get_market_tokens`: the first two token identifiers in
list order, when the market has at least two tokens. -/
def get_market_tokens (mm : MarketMonitor) (market_id : String) : Option (String × String) :=
  match mm.active_markets market_id with
  | none => none
  | some market =>
    match market.tokens with
    | t0 :: t1 :: _ => some (t0.token_id, t1.token_id)
    | _ => none

/-- `MarketMonitor::get_market_state_clone`. -/
def get_market_state_clone (mm : MarketMonitor) (market_id : String) : Option MarketState :=
  (mm.active_markets market_id).map Market.state

/-- In-place mutation of one market's state under the write lock. -/
def update_market_state (mm : MarketMonitor) (market_id : String)
    (f : MarketState → MarketState) : MarketMonitor :=
  { mm with active_markets := fun id =>
      if id = market_id then
        (mm.active_markets market_id).map (fun m => { m with state := f m.state })
      else
        mm.active_markets id }

/-- The state mutation at the heart of
`MarketMonitor::update_normalization_state`, given the computed
`sum = ask_yes + ask_no`. -/
def normalization_step (cfg : Config) (st : MarketState) (sum : ℚ) : MarketState :=
  let st1 :=
    if cfg.normalization_threshold ≤ sum then
      let c := st.consecutive_normalized_updates + 1
      { st with
        consecutive_normalized_updates := c
        is_normalized := if cfg.normalization_updates ≤ c then true else st.is_normalized }
    else
      { st with consecutive_normalized_updates := 0 }
  { st1 with last_edge := 1 - sum }

/-- `MarketMonitor::update_normalization_state`. -/
def update_normalization_state (cfg : Config) (mm : MarketMonitor)
    (market_id : String) : MarketMonitor :=
  match get_market_tokens mm market_id with
  | none => mm
  | some (yes_token, no_token) =>
    match get_best_asks mm yes_token no_token with
    | none => mm
    | some (ask_yes, ask_no) =>
      update_market_state mm market_id (fun st => normalization_step cfg st (ask_yes + ask_no))

/-- `MarketMonitor::mark_trade_executed`. -/
def mark_trade_executed (mm : MarketMonitor) (market_id : String) (now : ℤ) : MarketMonitor :=
  update_market_state mm market_id (fun st =>
    { st with
      is_normalized := false
      consecutive_normalized_updates := 0
      last_trade_time := some now })

theorem normalization_run_qualifying (cfg : Config) (sums : List ℚ)
    (hq : ∀ x ∈ sums, cfg.normalization_threshold ≤ x) (st : MarketState) :
    (sums.foldl (normalization_step cfg) st).consecutive_normalized_updates
        = st.consecutive_normalized_updates + sums.length ∧
    (sums.foldl (normalization_step cfg) st).is_normalized
        = (st.is_normalized ||
            (decide (1 ≤ sums.length) &&
              decide (cfg.normalization_updates
                ≤ st.consecutive_normalized_updates + sums.length))) := by
  induction sums generalizing st with
  | nil => simp
  | cons x rest ih =>
    have hx : cfg.normalization_threshold ≤ x := hq x (List.mem_cons_self x rest)
    have hrest : ∀ y ∈ rest, cfg.normalization_threshold ≤ y :=
      fun y hy => hq y (List.mem_cons_of_mem x hy)
    obtain ⟨ih1, ih2⟩ := ih hrest (normalization_step cfg st x)
    simp only [List.foldl_cons, List.length_cons]
    have hstep : normalization_step cfg st x =
        { st with
          consecutive_normalized_updates := st.consecutive_normalized_updates + 1
          is_normalized :=
            if cfg.normalization_updates ≤ st.consecutive_normalized_updates + 1 then true
            else st.is_normalized
          last_edge := 1 - x } := by
      simp only [normalization_step, if_pos hx]
    rw [hstep] at ih1 ih2
    refine ⟨?_, ?_⟩
    · rw [hstep, ih1]; simp; omega
    · rw [hstep, ih2]
      simp only
      by_cases h1 : cfg.normalization_updates ≤ st.consecutive_normalized_updates + 1 <;>
        by_cases h2 : 1 ≤ rest.length
      · have h3 : cfg.normalization_updates
            ≤ st.consecutive_normalized_updates + (rest.length + 1) := by omega
        simp [h1, h2, h3]
      · have h3 : cfg.normalization_updates
            ≤ st.consecutive_normalized_updates + (rest.length + 1) := by omega
        simp [h1, h2, h3]
      · have h3 : (cfg.normalization_updates ≤ st.consecutive_normalized_updates + 1 + rest.length)
            ↔ (cfg.normalization_updates ≤ st.consecutive_normalized_updates + (rest.length + 1)) := by
          omega
        simp [h1, h2, decide_eq_decide.mpr h3]
      · have h3 : ¬ cfg.normalization_updates
            ≤ st.consecutive_normalized_updates + (rest.length + 1) := by omega
        simp [h1, h2, h3]

/-- C5: from a reset state, `is_normalized` becomes true exactly on the N-th
consecutive update with `best ask sum ≥ normalization_threshold`
(N = `normalization_updates`) and not before; an update with sum below the
threshold resets `consecutive_normalized_updates` to 0 but never clears an
already-true `is_normalized`. -/
theorem normalization_latch (cfg : Config) (st0 st : MarketState) (sums : List ℚ) (s : ℚ)
    (hN : 0 < cfg.normalization_updates)
    (h0 : st0.is_normalized = false)
    (hc : st0.consecutive_normalized_updates = 0)
    (hq : ∀ x ∈ sums, cfg.normalization_threshold ≤ x)
    (hlow : s < cfg.normalization_threshold) :
    (sums.foldl (normalization_step cfg) st0).is_normalized
        = decide (cfg.normalization_updates ≤ sums.length) ∧
    (sums.foldl (normalization_step cfg) st0).consecutive_normalized_updates = sums.length ∧
    (normalization_step cfg st s).consecutive_normalized_updates = 0 ∧
    (normalization_step cfg st s).is_normalized = st.is_normalized := by
  obtain ⟨h1, h2⟩ := normalization_run_qualifying cfg sums hq st0
  have hstep : normalization_step cfg st s =
      { st with consecutive_normalized_updates := 0, last_edge := 1 - s } := by
    simp only [normalization_step, if_neg (not_le.mpr hlow)]
  refine ⟨?_, ?_, ?_, ?_⟩
  · rw [h2, h0, hc]
    by_cases hlen : cfg.normalization_updates ≤ sums.length <;> simp [hlen] <;> omega
  · rw [h1, hc]; omega
  · rw [hstep]
  · rw [hstep]

theorem normalization_latch_witness :
    (([199/200, 199/200, 199/200] : List ℚ).foldl
        (normalization_step ⟨1/20, 5, 99/100, 3, 30000⟩) ⟨none, false, 0, 0⟩).is_normalized
      = decide ((3 : ℕ) ≤ ([199/200, 199/200, 199/200] : List ℚ).length) ∧
    (([199/200, 199/200, 199/200] : List ℚ).foldl
        (normalization_step ⟨1/20, 5, 99/100, 3, 30000⟩) ⟨none, false, 0, 0⟩).consecutive_normalized_updates
      = ([199/200, 199/200, 199/200] : List ℚ).length ∧
    (normalization_step ⟨1/20, 5, 99/100, 3, 30000⟩ ⟨none, true, 2, 0⟩ (1/2)).consecutive_normalized_updates
      = 0 ∧
    (normalization_step ⟨1/20, 5, 99/100, 3, 30000⟩ ⟨none, true, 2, 0⟩ (1/2)).is_normalized
      = (⟨none, true, 2, 0⟩ : MarketState).is_normalized :=
  normalization_latch ⟨1/20, 5, 99/100, 3, 30000⟩ ⟨none, false, 0, 0⟩ ⟨none, true, 2, 0⟩
    [199/200, 199/200, 199/200] (1/2) (by decide) rfl rfl
    (by intro x hx; fin_cases hx <;> norm_num) (by norm_num)

/-! ### execution.rs -/

/-- `ExecutionEngine::create_order_payload` (the `nonce` stands for the
millisecond timestamp taken at payload creation). -/
def create_order_payload (market_id token_id : String) (side : Side)
    (price size : ℚ) (nonce : ℕ) : OrderRequest :=
  { market_id := market_id
    token_id := token_id
    side := side
    price := price
    size := size
    order_type := "FOK"
    nonce := nonce }

/-- The observable outcome of one `execute_arb` call: the returned status,
the risk state afterwards, and every order handed to `place_order`,
in submission order. -/
structure ExecResult where
  status : TradeStatus
  risk : RiskState
  submitted : List OrderRequest
deriving DecidableEq

/-- `ExecutionEngine::handle_emergency`: enter safe mode and build the
compensating sell (price zero, full size) on the filled leg's token. -/
def handle_emergency (s : RiskState) (market_id yes_token no_token : String)
    (filled_yes : Bool) (size : ℚ) (nonce : ℕ) : RiskState × OrderRequest :=
  let s1 := enter_safe_mode s
  let token_to_dump := if filled_yes then yes_token else no_token
  (s1, create_order_payload market_id token_to_dump Side.Sell 0 size nonce)

/-- `ExecutionEngine::execute_arb`.  `filled_yes`/`filled_no` are the results
of `verify_fill` on the two concurrently placed legs (true iff the venue
returned an order id for that leg). -/
def execute_arb (rm : RiskManager) (s : RiskState) (market_id yes_token no_token : String)
    (price_yes price_no size : ℚ) (filled_yes filled_no : Bool) (nonce : ℕ) : ExecResult :=
  let total_cost := (price_yes + price_no) * size
  if check_trade_size rm s total_cost then
    let order_yes := create_order_payload market_id yes_token Side.Buy price_yes size nonce
    let order_no := create_order_payload market_id no_token Side.Buy price_no size nonce
    if filled_yes && filled_no then
      let profit := (1 - (price_yes + price_no)) * size
      { status := TradeStatus.Filled
        risk := record_pnl rm s profit
        submitted := [order_yes, order_no] }
    else if !filled_yes && !filled_no then
      { status := TradeStatus.Cancelled
        risk := s
        submitted := [order_yes, order_no] }
    else
      let em := handle_emergency s market_id yes_token no_token filled_yes size nonce
      { status := TradeStatus.PartialFillEmergency
        risk := em.1
        submitted := [order_yes, order_no, em.2] }
  else
    { status := TradeStatus.Failed
      risk := s
      submitted := [] }

/-- C1: if the risk check passes and both legs are classified as filled,
`execute_arb` returns `Filled` and `current_balance` grows by exactly
`(1 − (price_yes + price_no)) × size`, the amount forwarded to
`record_pnl`. -/
theorem execute_arb_both_filled (rm : RiskManager) (s : RiskState)
    (market_id yes_token no_token : String) (price_yes price_no size : ℚ) (nonce : ℕ)
    (h : check_trade_size rm s ((price_yes + price_no) * size) = true) :
    (execute_arb rm s market_id yes_token no_token price_yes price_no size
        true true nonce).status = TradeStatus.Filled ∧
    (execute_arb rm s market_id yes_token no_token price_yes price_no size
        true true nonce).risk
      = record_pnl rm s ((1 - (price_yes + price_no)) * size) ∧
    (execute_arb rm s market_id yes_token no_token price_yes price_no size
        true true nonce).risk.current_balance
      = s.current_balance + (1 - (price_yes + price_no)) * size := by
  unfold execute_arb
  refine ⟨?_, ?_, ?_⟩ <;> simp [h, record_pnl]

theorem execute_arb_both_filled_witness :
    (execute_arb ⟨1/50, 1/100⟩ (new_risk_state 1000) "m1" "ty" "tn" (2/5) (11/20) 10
        true true 7).status = TradeStatus.Filled ∧
    (execute_arb ⟨1/50, 1/100⟩ (new_risk_state 1000) "m1" "ty" "tn" (2/5) (11/20) 10
        true true 7).risk
      = record_pnl ⟨1/50, 1/100⟩ (new_risk_state 1000) ((1 - (2/5 + 11/20)) * 10) ∧
    (execute_arb ⟨1/50, 1/100⟩ (new_risk_state 1000) "m1" "ty" "tn" (2/5) (11/20) 10
        true true 7).risk.current_balance
      = (new_risk_state 1000).current_balance + (1 - (2/5 + 11/20)) * 10 :=
  execute_arb_both_filled ⟨1/50, 1/100⟩ (new_risk_state 1000) "m1" "ty" "tn"
    (2/5) (11/20) 10 7 (by norm_num [check_trade_size, new_risk_state])

/-- C2: if the risk check passes and exactly one leg is classified as filled,
`execute_arb` returns `PartialFillEmergency`, `safe_mode` ends true, and
exactly one compensating SELL order — on the filled leg's token, for the full
trade size — is submitted. -/
theorem execute_arb_partial_fill (rm : RiskManager) (s : RiskState)
    (market_id yes_token no_token : String) (price_yes price_no size : ℚ)
    (filled_yes filled_no : Bool) (nonce : ℕ)
    (h : check_trade_size rm s ((price_yes + price_no) * size) = true)
    (hf : filled_yes ≠ filled_no) :
    (execute_arb rm s market_id yes_token no_token price_yes price_no size
        filled_yes filled_no nonce).status = TradeStatus.PartialFillEmergency ∧
    (execute_arb rm s market_id yes_token no_token price_yes price_no size
        filled_yes filled_no nonce).risk.safe_mode = true ∧
    ((execute_arb rm s market_id yes_token no_token price_yes price_no size
        filled_yes filled_no nonce).submitted.filter
          (fun o => decide (o.side = Side.Sell)))
      = [create_order_payload market_id (if filled_yes then yes_token else no_token)
          Side.Sell 0 size nonce] := by
  unfold execute_arb
  cases filled_yes <;> cases filled_no <;> simp at hf <;>
    simp [h, handle_emergency, enter_safe_mode, create_order_payload, List.filter]

theorem execute_arb_partial_fill_witness :
    (execute_arb ⟨1/50, 1/100⟩ (new_risk_state 1000) "m1" "ty" "tn" (2/5) (11/20) 10
        true false 7).status = TradeStatus.PartialFillEmergency ∧
    (execute_arb ⟨1/50, 1/100⟩ (new_risk_state 1000) "m1" "ty" "tn" (2/5) (11/20) 10
        true false 7).risk.safe_mode = true ∧
    ((execute_arb ⟨1/50, 1/100⟩ (new_risk_state 1000) "m1" "ty" "tn" (2/5) (11/20) 10
        true false 7).submitted.filter (fun o => decide (o.side = Side.Sell)))
      = [create_order_payload "m1" (if true then "ty" else "tn") Side.Sell 0 10 7] :=
  execute_arb_partial_fill ⟨1/50, 1/100⟩ (new_risk_state 1000) "m1" "ty" "tn"
    (2/5) (11/20) 10 true false 7
    (by norm_num [check_trade_size, new_risk_state]) (by decide)

/-- C7: if the risk check on `(price_yes + price_no) × size` fails,
`execute_arb` returns `Failed`, submits no order of any kind, and leaves the
risk state unchanged. -/
theorem execute_arb_risk_reject (rm : RiskManager) (s : RiskState)
    (market_id yes_token no_token : String) (price_yes price_no size : ℚ)
    (filled_yes filled_no : Bool) (nonce : ℕ)
    (h : check_trade_size rm s ((price_yes + price_no) * size) = false) :
    execute_arb rm s market_id yes_token no_token price_yes price_no size
        filled_yes filled_no nonce
      = { status := TradeStatus.Failed, risk := s, submitted := [] } := by
  unfold execute_arb
  simp [h]

theorem execute_arb_risk_reject_witness :
    execute_arb ⟨1/50, 1/100⟩ ⟨1000, 1000, 0, true⟩ "m1" "ty" "tn" (2/5) (11/20) 10
        true true 7
      = { status := TradeStatus.Failed, risk := ⟨1000, 1000, 0, true⟩, submitted := [] } :=
  execute_arb_risk_reject ⟨1/50, 1/100⟩ ⟨1000, 1000, 0, true⟩ "m1" "ty" "tn"
    (2/5) (11/20) 10 true true 7 (by norm_num [check_trade_size])

/-! ### strategy.rs -/

/-- The constant `TAKER_FEE` (`Decimal::ZERO`). -/
def TAKER_FEE : ℚ := 0

/-- `StrategyEngine::check_opportunity`. -/
def check_opportunity (cfg : Config) (price_yes price_no : ℚ) : Bool :=
  let fee_multiplier := 1 + TAKER_FEE
  let cost_yes := price_yes * fee_multiplier
  let cost_no := price_no * fee_multiplier
  let total_cost := cost_yes + cost_no
  let edge := 1 - total_cost
  if cfg.min_edge ≤ edge then true else false

/-- The re-entry gate of `StrategyEngine::process_market_update` (step 3:
normalization flag and cooldown); a market with no recorded state passes. -/
def reentry_gate (cfg : Config) (mm : MarketMonitor) (market_id : String) (now : ℤ) : Bool :=
  match get_market_state_clone mm market_id with
  | none => true
  | some st =>
    if !st.is_normalized then
      false
    else
      match st.last_trade_time with
      | none => true
      | some last_trade =>
        if now - last_trade < cfg.trade_cooldown_ms then false else true

/-- `StrategyEngine::process_market_update` for one notification: the updated
monitor, the risk state afterwards, and the `execute_arb` outcome when a
trade was dispatched (`none` when a gate aborted before dispatch).  `now` is
the current time in milliseconds. -/
def process_market_update (cfg : Config) (rm : RiskManager) (mm : MarketMonitor)
    (s : RiskState) (market_id : String) (now : ℤ)
    (filled_yes filled_no : Bool) (nonce : ℕ) :
    MarketMonitor × RiskState × Option ExecResult :=
  match get_market_tokens mm market_id with
  | none => (mm, s, none)
  | some (yes_token, no_token) =>
    let trade_size : ℚ := 10
    let required_liquidity := trade_size * cfg.min_liquidity_multiplier
    if !check_liquidity mm yes_token no_token required_liquidity then
      (mm, s, none)
    else if !reentry_gate cfg mm market_id now then
      (mm, s, none)
    else
      match get_best_asks mm yes_token no_token with
      | none => (mm, s, none)
      | some (price_yes, price_no) =>
        if check_opportunity cfg price_yes price_no then
          match get_best_asks mm yes_token no_token with
          | none => (mm, s, none)
          | some (final_yes, final_no) =>
            if check_opportunity cfg final_yes final_no then
              let er := execute_arb rm s market_id yes_token no_token final_yes final_no
                trade_size filled_yes filled_no nonce
              match er.status with
              | TradeStatus.Filled => (mark_trade_executed mm market_id now, er.risk, some er)
              | _ => (mm, er.risk, some er)
            else
              (mm, s, none)
        else
          (mm, s, none)

/-- Relabeling every token's outcome label, leaving identifiers, prices and
books untouched; used to state that leg selection never consults the
"Yes"/"No" labels. -/
def relabel_outcomes (f : String → String) (mm : MarketMonitor) : MarketMonitor :=
  { mm with active_markets := fun id =>
      (mm.active_markets id).map (fun m =>
        { m with tokens := m.tokens.map (fun t => { t with outcome := f t.outcome }) }) }

theorem process_market_update_cases (cfg : Config) (rm : RiskManager) (mm : MarketMonitor)
    (s : RiskState) (market_id : String) (now : ℤ) (filled_yes filled_no : Bool) (nonce : ℕ) :
    process_market_update cfg rm mm s market_id now filled_yes filled_no nonce = (mm, s, none) ∨
    ∃ yes_token no_token ask_yes ask_no er,
      get_market_tokens mm market_id = some (yes_token, no_token) ∧
      get_best_asks mm yes_token no_token = some (ask_yes, ask_no) ∧
      er = execute_arb rm s market_id yes_token no_token ask_yes ask_no 10
        filled_yes filled_no nonce ∧
      process_market_update cfg rm mm s market_id now filled_yes filled_no nonce =
        (if er.status = TradeStatus.Filled then mark_trade_executed mm market_id now else mm,
          er.risk, some er) := by
  unfold process_market_update
  cases hg : get_market_tokens mm market_id with
  | none => exact Or.inl rfl
  | some p =>
    obtain ⟨yes_token, no_token⟩ := p
    cases hl : check_liquidity mm yes_token no_token (10 * cfg.min_liquidity_multiplier) with
    | false => exact Or.inl (by simp [hl])
    | true =>
      cases hr : reentry_gate cfg mm market_id now with
      | false => exact Or.inl (by simp [hl, hr])
      | true =>
        cases hb : get_best_asks mm yes_token no_token with
        | none => exact Or.inl (by simp [hl, hr, hb])
        | some q =>
          obtain ⟨ask_yes, ask_no⟩ := q
          cases ho : check_opportunity cfg ask_yes ask_no with
          | false => exact Or.inl (by simp [hl, hr, hb, ho])
          | true =>
            refine Or.inr ⟨yes_token, no_token, ask_yes, ask_no,
              execute_arb rm s market_id yes_token no_token ask_yes ask_no 10
                filled_yes filled_no nonce, by first | rfl | exact hg,
              by first | rfl | exact hb, rfl, ?_⟩
            cases hs : (execute_arb rm s market_id yes_token no_token ask_yes ask_no 10
                filled_yes filled_no nonce).status <;>
              simp [hl, hr, hb, ho, hs]

theorem get_market_tokens_some (mm : MarketMonitor) (market_id : String) (p : String × String)
    (h : get_market_tokens mm market_id = some p) :
    ∃ m, mm.active_markets market_id = some m := by
  unfold get_market_tokens at h
  cases hm : mm.active_markets market_id with
  | none => rw [hm] at h; simp at h
  | some m => exact ⟨m, rfl⟩

theorem mark_trade_executed_at (mm : MarketMonitor) (market_id : String) (now : ℤ) (m : Market)
    (hm : mm.active_markets market_id = some m) :
    (mark_trade_executed mm market_id now).active_markets market_id
      = some { m with state := { m.state with
          is_normalized := false
          consecutive_normalized_updates := 0
          last_trade_time := some now } } ∧
    ∀ id, id ≠ market_id →
      (mark_trade_executed mm market_id now).active_markets id = mm.active_markets id := by
  unfold mark_trade_executed update_market_state
  constructor
  · simp [hm]
  · intro id hid
    simp [hid]

/-- C8: when a dispatched `execute_arb` returns `Filled`, the market's state
is reset (`is_normalized` false, counter 0, `last_trade_time` set to now) and
no other market is touched; on any other returned status the monitor is left
entirely unchanged. -/
theorem process_update_frame (cfg : Config) (rm : RiskManager) (mm : MarketMonitor)
    (s : RiskState) (market_id : String) (now : ℤ) (filled_yes filled_no : Bool)
    (nonce : ℕ) (er : ExecResult)
    (h : (process_market_update cfg rm mm s market_id now filled_yes filled_no nonce).2.2
      = some er) :
    (er.status = TradeStatus.Filled →
      (∃ m, mm.active_markets market_id = some m ∧
        (process_market_update cfg rm mm s market_id now filled_yes filled_no nonce).1.active_markets
            market_id
          = some { m with state := { m.state with
              is_normalized := false
              consecutive_normalized_updates := 0
              last_trade_time := some now } }) ∧
      (∀ id, id ≠ market_id →
        (process_market_update cfg rm mm s market_id now filled_yes filled_no nonce).1.active_markets
            id
          = mm.active_markets id)) ∧
    (er.status ≠ TradeStatus.Filled →
      (process_market_update cfg rm mm s market_id now filled_yes filled_no nonce).1 = mm) := by
  rcases process_market_update_cases cfg rm mm s market_id now filled_yes filled_no nonce with
    hc | ⟨yes_token, no_token, ask_yes, ask_no, er2, hg, hb, her, hp⟩
  · rw [hc] at h
    simp at h
  · rw [hp] at h
    simp at h
    subst h
    obtain ⟨m, hm⟩ := get_market_tokens_some mm market_id _ hg
    obtain ⟨hmk1, hmk2⟩ := mark_trade_executed_at mm market_id now m hm
    constructor
    · intro hf
      rw [hp]
      simp only [hf, if_pos]
      exact ⟨⟨m, hm, hmk1⟩, hmk2⟩
    · intro hnf
      rw [hp]
      simp [hnf]

/-! ### A concrete scenario (spec scenario 1: YES at 0.40, NO at 0.55,
size 10, fee 0, min edge 0.05, documented config defaults) -/

def sample_config : Config :=
  { min_edge := 1/20
    min_liquidity_multiplier := 5
    normalization_threshold := 99/100
    normalization_updates := 3
    trade_cooldown_ms := 30000 }

def sample_rm : RiskManager :=
  { max_daily_loss_pct := 1/50, max_trade_capital_pct := 1/100 }

def sample_market : Market :=
  { condition_id := "m1"
    question := "q"
    tokens := [⟨"ty", "Yes", 0, false⟩, ⟨"tn", "No", 0, false⟩]
    active := true
    closed := false
    accepting_orders := true
    end_date_iso := none
    tags := some ["Crypto"]
    state := ⟨none, true, 3, 0⟩ }

def sample_monitor : MarketMonitor :=
  { active_markets := fun id => if id = "m1" then some sample_market else none
    order_books := fun id =>
      if id = "ty" then some ⟨"m1", "ty", [], [⟨2/5, 100⟩], 0⟩
      else if id = "tn" then some ⟨"m1", "tn", [], [⟨11/20, 100⟩], 0⟩
      else none }

def sample_exec : ExecResult :=
  execute_arb sample_rm (new_risk_state 1000) "m1" "ty" "tn" (2/5) (11/20) 10 true true 7

theorem process_update_frame_witness :
    (sample_exec.status = TradeStatus.Filled →
      (∃ m, sample_monitor.active_markets "m1" = some m ∧
        (process_market_update sample_config sample_rm sample_monitor (new_risk_state 1000)
            "m1" 5 true true 7).1.active_markets "m1"
          = some { m with state := { m.state with
              is_normalized := false
              consecutive_normalized_updates := 0
              last_trade_time := some 5 } }) ∧
      (∀ id, id ≠ "m1" →
        (process_market_update sample_config sample_rm sample_monitor (new_risk_state 1000)
            "m1" 5 true true 7).1.active_markets id
          = sample_monitor.active_markets id)) ∧
    (sample_exec.status ≠ TradeStatus.Filled →
      (process_market_update sample_config sample_rm sample_monitor (new_risk_state 1000)
          "m1" 5 true true 7).1 = sample_monitor) :=
  process_update_frame sample_config sample_rm sample_monitor (new_risk_state 1000)
    "m1" 5 true true 7 sample_exec (by
      have hg : get_market_tokens sample_monitor "m1" = some ("ty", "tn") := by
        simp [get_market_tokens, sample_monitor, sample_market]
      have hb : get_best_asks sample_monitor "ty" "tn" = some (2/5, 11/20) := by
        simp [get_best_asks, sample_monitor, min_by_price]
      have hl : check_liquidity sample_monitor "ty" "tn"
          (10 * sample_config.min_liquidity_multiplier) = true := by
        have hne : ("tn" : String) ≠ "ty" := by decide
        norm_num [check_liquidity, check_token_liquidity, min_by_price,
          sample_monitor, sample_config, hne]
      have hr : reentry_gate sample_config sample_monitor "m1" 5 = true := by
        simp [reentry_gate, get_market_state_clone, sample_monitor, sample_market]
      have ho : check_opportunity sample_config (2/5) (11/20) = true := by
        norm_num [check_opportunity, sample_config, TAKER_FEE]
      have hs : (execute_arb sample_rm (new_risk_state 1000) "m1" "ty" "tn"
          (2/5) (11/20) 10 true true 7).status = TradeStatus.Filled := by
        have hc : check_trade_size sample_rm (new_risk_state 1000)
            ((2/5 + 11/20) * 10) = true := by
          norm_num [check_trade_size, sample_rm, new_risk_state]
        simp [execute_arb, hc]
      unfold process_market_update
      rw [hg]
      simp only [hl, hr, hb, ho, hs, Bool.not_true, Bool.false_eq_true, if_false,
        ite_false, ite_true, Bool.not_false]
      rfl)

/-- C9: the opportunity check passes exactly when
`1 − (price_yes×(1+fee) + price_no×(1+fee)) ≥ min_edge` (with the code's
`TAKER_FEE = 0`); in particular an edge exactly equal to `min_edge`
qualifies: `price_yes = 0.40`, `price_no = 0.55` with `min_edge = 0.05`. -/
theorem check_opportunity_spec :
    (∀ (cfg : Config) (price_yes price_no : ℚ),
      check_opportunity cfg price_yes price_no = true ↔
        cfg.min_edge ≤ 1 - (price_yes * (1 + TAKER_FEE) + price_no * (1 + TAKER_FEE))) ∧
    check_opportunity sample_config (2/5) (11/20) = true := by
  constructor
  · intro cfg price_yes price_no
    unfold check_opportunity
    by_cases h : cfg.min_edge ≤ 1 - (price_yes * (1 + TAKER_FEE) + price_no * (1 + TAKER_FEE)) <;>
      simp [h]
  · norm_num [check_opportunity, sample_config, TAKER_FEE]

theorem execute_arb_submitted_shape (rm : RiskManager) (s : RiskState)
    (market_id yes_token no_token : String) (price_yes price_no size : ℚ)
    (filled_yes filled_no : Bool) (nonce : ℕ) (order_yes order_no : OrderRequest)
    (more : List OrderRequest)
    (h : (execute_arb rm s market_id yes_token no_token price_yes price_no size
        filled_yes filled_no nonce).submitted = order_yes :: order_no :: more) :
    order_yes = create_order_payload market_id yes_token Side.Buy price_yes size nonce ∧
    order_no = create_order_payload market_id no_token Side.Buy price_no size nonce := by
  simp only [execute_arb] at h
  cases hc : check_trade_size rm s ((price_yes + price_no) * size) with
  | false => rw [hc] at h; simp at h
  | true =>
    rw [hc] at h
    cases filled_yes <;> cases filled_no <;>
      simp [handle_emergency, enter_safe_mode] at h <;>
      first
        | exact ⟨h.1.symm, h.2.1.symm⟩
        | exact ⟨h.1, h.2.1⟩
        | exact ⟨h.1.symm, h.2.1⟩
        | exact ⟨h.1, h.2.1.symm⟩

/-- C10: for a market with at least two tokens, `get_market_tokens` returns
the first two token identifiers in list order; the outcome labels are never
consulted (the result is invariant under relabeling them); and the dispatch
pipeline buys the first-listed token as the YES leg and the second as the NO
leg. -/
theorem leg_selection (mm : MarketMonitor) (market_id : String) (m : Market)
    (t0 t1 : Token) (rest : List Token)
    (hm : mm.active_markets market_id = some m) (ht : m.tokens = t0 :: t1 :: rest) :
    get_market_tokens mm market_id = some (t0.token_id, t1.token_id) ∧
    (∀ (mm2 : MarketMonitor) (mid2 : String) (f : String → String),
      get_market_tokens (relabel_outcomes f mm2) mid2 = get_market_tokens mm2 mid2) ∧
    (∀ (cfg : Config) (rm : RiskManager) (s : RiskState) (now : ℤ)
        (filled_yes filled_no : Bool) (nonce : ℕ) (er : ExecResult)
        (order_yes order_no : OrderRequest) (more : List OrderRequest),
      (process_market_update cfg rm mm s market_id now filled_yes filled_no nonce).2.2
          = some er →
      er.submitted = order_yes :: order_no :: more →
      order_yes.token_id = t0.token_id ∧ order_yes.side = Side.Buy ∧
        order_no.token_id = t1.token_id ∧ order_no.side = Side.Buy) := by
  have hg : get_market_tokens mm market_id = some (t0.token_id, t1.token_id) := by
    simp [get_market_tokens, hm, ht]
  refine ⟨hg, ?_, ?_⟩
  · intro mm2 mid2 f
    unfold get_market_tokens relabel_outcomes
    cases hm2 : mm2.active_markets mid2 with
    | none => simp [hm2]
    | some m2 =>
      simp only [hm2, Option.map_some']
      cases m2.tokens with
      | nil => simp
      | cons a l =>
        cases l with
        | nil => simp
        | cons b l2 => simp
  · intro cfg rm s now filled_yes filled_no nonce er order_yes order_no more hp hsub
    rcases process_market_update_cases cfg rm mm s market_id now filled_yes filled_no nonce with
      hc | ⟨yt, nt, ay, an, er2, hg2, hb, her, hpr⟩
    · rw [hc] at hp; simp at hp
    · rw [hpr] at hp
      simp at hp
      subst hp
      rw [hg] at hg2
      have e1 : t0.token_id = yt := by injection hg2 with h12; exact congrArg Prod.fst h12
      have e2 : t1.token_id = nt := by injection hg2 with h12; exact congrArg Prod.snd h12
      subst e1
      subst e2
      rw [her] at hsub
      obtain ⟨ho1, ho2⟩ := execute_arb_submitted_shape rm s market_id t0.token_id t1.token_id
        ay an 10 filled_yes filled_no nonce order_yes order_no more hsub
      exact ⟨by simp [ho1, create_order_payload], by simp [ho1, create_order_payload],
        by simp [ho2, create_order_payload], by simp [ho2, create_order_payload]⟩

theorem leg_selection_witness :
    get_market_tokens sample_monitor "m1"
      = some ((⟨"ty", "Yes", 0, false⟩ : Token).token_id,
          (⟨"tn", "No", 0, false⟩ : Token).token_id) ∧
    (∀ (mm2 : MarketMonitor) (mid2 : String) (f : String → String),
      get_market_tokens (relabel_outcomes f mm2) mid2 = get_market_tokens mm2 mid2) ∧
    (∀ (cfg : Config) (rm : RiskManager) (s : RiskState) (now : ℤ)
        (filled_yes filled_no : Bool) (nonce : ℕ) (er : ExecResult)
        (order_yes order_no : OrderRequest) (more : List OrderRequest),
      (process_market_update cfg rm sample_monitor s "m1" now filled_yes filled_no nonce).2.2
          = some er →
      er.submitted = order_yes :: order_no :: more →
      order_yes.token_id = (⟨"ty", "Yes", 0, false⟩ : Token).token_id ∧
        order_yes.side = Side.Buy ∧
        order_no.token_id = (⟨"tn", "No", 0, false⟩ : Token).token_id ∧
        order_no.side = Side.Buy) :=
  leg_selection sample_monitor "m1" sample_market ⟨"ty", "Yes", 0, false⟩
    ⟨"tn", "No", 0, false⟩ [] rfl rfl
